import Mathlib

/-!
Verification of the Helsinki city-bike trip-record cleaning pipeline
(`clean_data.py`).

The script loads a CSV into a pandas dataframe, parses the two timestamp
columns, and then applies ten ordered cleaning stages followed by a
re-serialization of the timestamps.  We embed the dataframe as a list of
`TripRecord`s.

Modelling decisions, each matching the pandas semantics of the source:

* pandas stores a parsed timestamp as `datetime64[ns]`, i.e. an `Int64`
  count of nanoseconds; an unparseable value becomes `NaT`.  A timestamp
  is therefore `Option ℤ` (nanoseconds, `none` = `NaT`).
* `(Return - Departure).dt.total_seconds().astype(int)` divides the
  nanosecond difference by 10^9 and truncates toward zero, which on exact
  integers is `Int.tdiv` by `nsPerSec`.
* `strftime("%Y-%m-%dT%H:%M:%S")` drops the sub-second part of the
  timestamp, i.e. rounds the nanosecond count down to a whole second:
  `nsPerSec * (t.ediv nsPerSec)`.
* `Covered distance (m)` may be `NaN`, hence `Option ℤ`; `new_duration`
  is `Option ℤ` (`none` when the dataframe has no such column for the
  record); every further column is an uninterpreted `(name, value)` pair
  in `extra`.
* Row filters (`df = df[mask]`) become `List.filter`, column assignments
  become `List.map`, `drop_duplicates()` keeps the first occurrence,
  `sort_values('Departure', ascending=False)` is a descending sort on the
  departure key.
-/

namespace HelsinkiBikes

/-- Nanoseconds per second: the unit conversion used by
`Series.dt.total_seconds()` on a `datetime64[ns]` difference. -/
def nsPerSec : ℤ := 1000000000

/-- One row of the trip dataframe.  `departure`/`retTime` are the parsed
`Departure`/`Return` timestamps in nanoseconds (`none` = `NaT`);
`durationSec` is the source-supplied `Duration (sec.)` column;
`coveredDistance` is `Covered distance (m)` (`none` = `NaN`);
`newDuration` is the `new_duration` column (`none` when the dataframe has
no such column); `extra` holds every remaining column verbatim. -/
@[ext]
structure TripRecord where
  departure : Option ℤ
  retTime : Option ℤ
  departureStationId : ℤ
  returnStationId : ℤ
  durationSec : ℤ
  coveredDistance : Option ℤ
  newDuration : Option ℤ
  extra : List (String × String)
deriving DecidableEq

/-- Both timestamp columns parsed successfully (`dropna` keeps the row). -/
def hasValidDatetimes (r : TripRecord) : Bool :=
  r.departure.isSome && r.retTime.isSome

/-- Step 1: `df.dropna(subset=['Departure', 'Return'])`. -/
def dropInvalidDatetime (df : List TripRecord) : List TripRecord :=
  df.filter hasValidDatetimes

/-- Recursion of `dropDuplicates`: keep a row exactly when no identical
row has been kept before (`seen` accumulates the kept rows). -/
def dropDuplicatesAux (seen : List TripRecord) :
    List TripRecord → List TripRecord
  | [] => []
  | r :: rest =>
      if r ∈ seen then dropDuplicatesAux seen rest
      else r :: dropDuplicatesAux (r :: seen) rest

/-- Step 2: `df.drop_duplicates()` — drop each row that is field-for-field
identical to an earlier-kept row (pandas keeps the first occurrence). -/
def dropDuplicates (df : List TripRecord) : List TripRecord :=
  dropDuplicatesAux [] df

/-- The row mask `df['Return'] >= df['Departure']`; a `NaT` on either side
compares as `False` in pandas. -/
def returnGeDeparture (r : TripRecord) : Bool :=
  match r.retTime, r.departure with
  | some b, some a => decide (a ≤ b)
  | _, _ => false

/-- Step 3: `df = df[df['Return'] >= df['Departure']]`. -/
def dropReturnBeforeDeparture (df : List TripRecord) : List TripRecord :=
  df.filter returnGeDeparture

/-- `total_seconds().astype(int)` on a nanosecond difference: divide by
10^9 truncating toward zero. -/
def totalSecondsAsInt (ns : ℤ) : ℤ :=
  Int.tdiv ns nsPerSec

/-- Remove every column named `name` from the uninterpreted columns. -/
def dropCol (name : String) (cols : List (String × String)) :
    List (String × String) :=
  cols.filter (fun p => p.1 ≠ name)

/-- Step 4 on one row:
`df['new_duration'] = (df['Return'] - df['Departure']).dt.total_seconds().astype(int)`.
The assignment overwrites any existing `new_duration` column, so an
uninterpreted column of that name disappears in favour of the dedicated
field.  (On a row whose timestamps were `NaT` — impossible after steps
1–3 — pandas would raise on `astype(int)`; the `getD 0` default is only
ever used on such unreachable rows.) -/
def addNewDuration (r : TripRecord) : TripRecord :=
  { r with
    newDuration := some (totalSecondsAsInt (r.retTime.getD 0 - r.departure.getD 0))
    extra := dropCol "new_duration" r.extra }

/-- Step 4: compute the `new_duration` column for every row. -/
def calcNewDuration (df : List TripRecord) : List TripRecord :=
  df.map addNewDuration

/-- The row mask `df['new_duration'] >= 60`. -/
def minDurationOk (r : TripRecord) : Bool :=
  match r.newDuration with
  | some d => decide (60 ≤ d)
  | none => false

/-- Step 5: `df = df[df['new_duration'] >= 60]`. -/
def dropShortTrips (df : List TripRecord) : List TripRecord :=
  df.filter minDurationOk

/-- The row mask `df['new_duration'] <= 14400`. -/
def maxDurationOk (r : TripRecord) : Bool :=
  match r.newDuration with
  | some d => decide (d ≤ 14400)
  | none => false

/-- Step 6: `df = df[df['new_duration'] <= 14400]`. -/
def dropLongTrips (df : List TripRecord) : List TripRecord :=
  df.filter maxDurationOk

/-- Step 7, repair part: set `Covered distance (m)` to 0 on rows whose
distance is missing and whose departure and return station ids agree. -/
def fillSameStationDistance (r : TripRecord) : TripRecord :=
  if r.departureStationId = r.returnStationId ∧ r.coveredDistance = none then
    { r with coveredDistance := some 0 }
  else r

/-- Step 7: the same-station repair followed by
`df.dropna(subset=['Covered distance (m)'])`. -/
def fixMissingDistance (df : List TripRecord) : List TripRecord :=
  (df.map fillSameStationDistance).filter (fun r => r.coveredDistance.isSome)

/-- The row mask `df['Covered distance (m)'] > 0`. -/
def positiveDistance (r : TripRecord) : Bool :=
  match r.coveredDistance with
  | some m => decide (0 < m)
  | none => false

/-- Step 7.5: `df = df[df['Covered distance (m)'] > 0]`. -/
def dropZeroDistance (df : List TripRecord) : List TripRecord :=
  df.filter positiveDistance

/-- Step 8 speed column:
`df['Speed_kmh'] = (df['Covered distance (m)'] / 1000) / (df['new_duration'] / 3600)`.
Written as a single exact rational division `Rat.divInt`;
`speedKmh_eq_div` below proves it equal to the two-division source formula
for every integer distance and duration (both sides take the junk value 0
on the division-by-zero rows that the claims show unreachable). -/
def speedKmh (r : TripRecord) : ℚ :=
  Rat.divInt (r.coveredDistance.getD 0 * 3600) (1000 * r.newDuration.getD 0)

/-- The row mask `df['Speed_kmh'] <= 50`. -/
def speedOk (r : TripRecord) : Bool :=
  decide (speedKmh r ≤ 50)

/-- `df.drop(columns=['Speed_kmh'])` on one row: the transient column
(overwriting any input column of that name) is removed again. -/
def dropSpeedCol (r : TripRecord) : TripRecord :=
  { r with extra := dropCol "Speed_kmh" r.extra }

/-- Step 8: filter on the computed speed, then drop the transient
`Speed_kmh` column. -/
def dropUnrealisticSpeed (df : List TripRecord) : List TripRecord :=
  (df.filter speedOk).map dropSpeedCol

/-- The row mask `df['new_duration'] > 0`. -/
def positiveNewDuration (r : TripRecord) : Bool :=
  match r.newDuration with
  | some d => decide (0 < d)
  | none => false

/-- Step 9: `df = df[df['new_duration'] > 0]`. -/
def dropZeroDuration (df : List TripRecord) : List TripRecord :=
  df.filter positiveNewDuration

/-- Sort key of step 10: the departure timestamp (never `NaT` for rows
that reach step 10). -/
def departureKey (r : TripRecord) : ℤ :=
  r.departure.getD 0

/-- The descending-departure order of
`df.sort_values('Departure', ascending=False)`. -/
def departureDesc (a b : TripRecord) : Prop :=
  departureKey b ≤ departureKey a

instance : DecidableRel departureDesc :=
  fun a b => inferInstanceAs (Decidable (departureKey b ≤ departureKey a))

instance : IsTotal TripRecord departureDesc :=
  ⟨fun a b => le_total (departureKey b) (departureKey a)⟩

instance : IsTrans TripRecord departureDesc :=
  ⟨fun _ _ _ h₁ h₂ => le_trans h₂ h₁⟩

/-- Step 10: sort by departure time, descending. -/
def sortByDeparture (df : List TripRecord) : List TripRecord :=
  df.insertionSort departureDesc

/-- `strftime('%Y-%m-%dT%H:%M:%S')` drops the fractional-second part:
round the nanosecond timestamp down to a whole second. -/
def floorToSecond (ts : ℤ) : ℤ :=
  nsPerSec * Int.ediv ts nsPerSec

/-- Re-serialization of one output row: both timestamp columns are
formatted without fractional seconds; every other column is written (and
re-parsed) verbatim. -/
def serializeRecord (r : TripRecord) : TripRecord :=
  { r with
    departure := r.departure.map floorToSecond
    retTime := r.retTime.map floorToSecond }

/-- Steps 1–10 of the cleaning pipeline, in source order. -/
def cleanPipeline (df : List TripRecord) : List TripRecord :=
  sortByDeparture (dropZeroDuration (dropUnrealisticSpeed (dropZeroDistance
    (fixMissingDistance (dropLongTrips (dropShortTrips (calcNewDuration
      (dropReturnBeforeDeparture (dropDuplicates (dropInvalidDatetime df))))))))))

/-- The rows of the CSV the script writes: the cleaned rows with the
timestamp columns re-serialized to whole seconds. -/
def cleanedOutput (df : List TripRecord) : List TripRecord :=
  (cleanPipeline df).map serializeRecord

/-- The per-stage report `removed/before*100`: Python integer division by
zero raises `ZeroDivisionError`, modelled as `none`. -/
def removalPercentage (removed before : ℕ) : Option ℚ :=
  if before = 0 then none else some ((removed : ℚ) / before * 100)

/-- The step-5 report line
`print(f"   Removed: {removed:,} rows ({removed/before*100:.2f}%)")`. -/
def shortTripsReport (df : List TripRecord) : Option ℚ :=
  removalPercentage (df.length - (dropShortTrips df).length) df.length

/-- The cleaning-summary line `(len(df)/initial_rows)*100`. -/
def retainedPercentage (finalRows initialRows : ℕ) : Option ℚ :=
  if initialRows = 0 then none else some ((finalRows : ℚ) / initialRows * 100)

/-- Steps 1–3 composed: the rows that survive the timestamp-validity,
duplicate, and temporal-order stages. -/
def validRows (df : List TripRecord) : List TripRecord :=
  dropReturnBeforeDeparture (dropDuplicates (dropInvalidDatetime df))

/-- Steps 4–7.5 composed on the step-3 survivors: the rows that reach
the speed-bound stage. -/
def preSpeedRows (df : List TripRecord) : List TripRecord :=
  dropZeroDistance (fixMissingDistance (dropLongTrips (dropShortTrips
    (calcNewDuration (validRows df)))))

/-- The three row-modifying maps of the pipeline (steps 4, 7, 8) composed:
every output row is `enrichRecord` of a step-3 survivor. -/
def enrichRecord (r : TripRecord) : TripRecord :=
  dropSpeedCol (fillSameStationDistance (addNewDuration r))

/-- The integer second-difference of the two timestamps as they are
re-parsed from the serialized output (both rounded down to a whole
second, so the difference is an exact number of seconds). -/
def serializedSecondDiff (r : TripRecord) : ℤ :=
  totalSecondsAsInt ((serializeRecord r).retTime.getD 0 -
    (serializeRecord r).departure.getD 0)

/-- Projection of a row to the original input columns: the derived
`new_duration` column is removed. -/
def originalColumns (r : TripRecord) : TripRecord :=
  { r with newDuration := none }

/-- Overwrite the source-supplied `Duration (sec.)` column by a
relabelling `g` (used to state that the pipeline never reads it). -/
def setRecordedDuration (g : ℤ → ℤ) (r : TripRecord) : TripRecord :=
  { r with durationSec := g r.durationSec }

/-- The timestamp is a whole number of seconds (no fractional part
that the output serialization would drop). -/
def wholeSecond (t : ℤ) : Prop := nsPerSec ∣ t

instance : DecidablePred wholeSecond :=
  fun t => decidable_of_iff (t % nsPerSec = 0) Int.dvd_iff_emod_eq_zero.symm

/-- An (optional) timestamp column value with no fractional second. -/
def wholeSecondOpt (o : Option ℤ) : Bool :=
  o.all (fun t => decide (wholeSecond t))

/-- A fresh input row: the CSV carries neither a `new_duration` nor a
`Speed_kmh` column for it, and its timestamps (when parseable) are whole
seconds — the shape of every row of an original, not-yet-cleaned trip
CSV. -/
def freshInput (r : TripRecord) : Prop :=
  r.newDuration = none ∧
  dropCol "new_duration" r.extra = r.extra ∧
  dropCol "Speed_kmh" r.extra = r.extra ∧
  wholeSecondOpt r.departure = true ∧
  wholeSecondOpt r.retTime = true

instance (r : TripRecord) : Decidable (freshInput r) :=
  inferInstanceAs (Decidable (_ ∧ _ ∧ _ ∧ _ ∧ _))

/-- The invariants the pipeline establishes for every row it outputs. -/
structure CleanRow (r : TripRecord) : Prop where
  depSome : r.departure.isSome = true
  retSome : r.retTime.isSome = true
  ordered : returnGeDeparture r = true
  derived : r.newDuration =
    some (totalSecondsAsInt (r.retTime.getD 0 - r.departure.getD 0))
  minDur : minDurationOk r = true
  maxDur : maxDurationOk r = true
  distPos : positiveDistance r = true
  speed : speedOk r = true
  posDur : positiveNewDuration r = true
  noNewDurCol : dropCol "new_duration" r.extra = r.extra
  noSpeedCol : dropCol "Speed_kmh" r.extra = r.extra

/-- A well-formed trip that survives the whole pipeline: 10 minutes,
1.5 km, distinct stations, whole-second timestamps. -/
def validTrip : TripRecord :=
  ⟨some 0, some (600 * nsPerSec), 10, 20, 600, some 1500, none, []⟩

/-- The output row the pipeline produces for `validTrip`. -/
def validTripOut : TripRecord :=
  ⟨some 0, some (600 * nsPerSec), 10, 20, 600, some 1500, some 600, []⟩

/-- Like `validTrip` but carrying an arbitrary extra column. -/
def extraColTrip : TripRecord :=
  ⟨some 0, some (600 * nsPerSec), 10, 20, 600, some 1500, none,
    [("weather", "sunny")]⟩

/-- A trip whose departure has a fractional second (0.9 s): return minus
departure is 0.1 s, but the re-serialized timestamps differ by 1 s. -/
def fracSecondTrip : TripRecord :=
  ⟨some 900000000, some nsPerSec, 1, 2, 1, some 1000, none, []⟩

/-- Departure at 0.9 s, return at 14401 s: the derived duration is 14400
(kept), but after serialization the timestamps are 0 s and 14401 s, so a
second pipeline run derives 14401 and drops the row. -/
def longFracTrip : TripRecord :=
  ⟨some 900000000, some (14401 * nsPerSec), 1, 2, 100, some 1000, none, []⟩

/-- Twin of `fracTwinB` shifted by half a second: both rows survive and
serialize to identical output rows. -/
def fracTwinA : TripRecord :=
  ⟨some 0, some (100 * nsPerSec), 1, 2, 100, some 1000, none, []⟩

/-- See `fracTwinA`. -/
def fracTwinB : TripRecord :=
  ⟨some 500000000, some (100 * nsPerSec + 500000000), 1, 2, 100,
    some 1000, none, []⟩

/-- A surviving-until-step-7.5 trip with a (non-null) negative recorded
distance. -/
def negDistTrip : TripRecord :=
  ⟨some 0, some (600 * nsPerSec), 7, 7, 600, some (-1), none, []⟩

/-- The row `negDistTrip` has become when it reaches step 7.5. -/
def negDistRow : TripRecord :=
  fillSameStationDistance (addNewDuration negDistTrip)

/-- A same-station trip with missing distance (concrete scenario C). -/
def sameStationNullTrip : TripRecord :=
  ⟨some 0, some (600 * nsPerSec), 7, 7, 600, none, none, []⟩

/-- Like `validTrip` but carrying an input column literally named
`Speed_kmh`. -/
def speedColTrip : TripRecord :=
  ⟨some 0, some (600 * nsPerSec), 10, 20, 600, some 1500, none,
    [("Speed_kmh", "x")]⟩

/-- Like `validTrip` with recorded duration 100. -/
def dupDurTripA : TripRecord :=
  ⟨some 0, some (600 * nsPerSec), 10, 20, 100, some 1500, none, []⟩

/-- Identical to `dupDurTripA` except for the recorded duration. -/
def dupDurTripB : TripRecord :=
  ⟨some 0, some (600 * nsPerSec), 10, 20, 200, some 1500, none, []⟩

/-- A surviving trip whose source-supplied recorded duration is negative. -/
def negDurTrip : TripRecord :=
  ⟨some 0, some (600 * nsPerSec), 10, 20, -5, some 1500, none, []⟩

/-- The output row the pipeline produces for `extraColTrip`. -/
def extraColTripOut : TripRecord :=
  ⟨some 0, some (600 * nsPerSec), 10, 20, 600, some 1500, some 600,
    [("weather", "sunny")]⟩

/-- The output row the pipeline produces for `negDurTrip`. -/
def negDurTripOut : TripRecord :=
  ⟨some 0, some (600 * nsPerSec), 10, 20, -5, some 1500, some 600, []⟩

theorem speedKmh_eq_div (r : TripRecord) :
    speedKmh r = ((r.coveredDistance.getD 0 : ℚ) / 1000) /
      ((r.newDuration.getD 0 : ℚ) / 3600) := by
  rw [speedKmh]
  rcases eq_or_ne (r.newDuration.getD 0) 0 with h | h
  · simp [h, Rat.divInt_eq_div]
  · rw [Rat.divInt_eq_div]
    have hn : ((r.newDuration.getD 0 : ℤ) : ℚ) ≠ 0 := Int.cast_ne_zero.mpr h
    push_cast
    field_simp

theorem hasValidDatetimes_congr {a b : TripRecord}
    (hd : a.departure = b.departure) (hr : a.retTime = b.retTime) :
    hasValidDatetimes a = hasValidDatetimes b := by
  rw [hasValidDatetimes, hasValidDatetimes, hd, hr]

theorem returnGeDeparture_congr {a b : TripRecord}
    (hd : a.departure = b.departure) (hr : a.retTime = b.retTime) :
    returnGeDeparture a = returnGeDeparture b := by
  rw [returnGeDeparture, returnGeDeparture, hd, hr]

theorem minDurationOk_congr {a b : TripRecord}
    (h : a.newDuration = b.newDuration) :
    minDurationOk a = minDurationOk b := by
  rw [minDurationOk, minDurationOk, h]

theorem maxDurationOk_congr {a b : TripRecord}
    (h : a.newDuration = b.newDuration) :
    maxDurationOk a = maxDurationOk b := by
  rw [maxDurationOk, maxDurationOk, h]

theorem positiveNewDuration_congr {a b : TripRecord}
    (h : a.newDuration = b.newDuration) :
    positiveNewDuration a = positiveNewDuration b := by
  rw [positiveNewDuration, positiveNewDuration, h]

theorem positiveDistance_congr {a b : TripRecord}
    (h : a.coveredDistance = b.coveredDistance) :
    positiveDistance a = positiveDistance b := by
  rw [positiveDistance, positiveDistance, h]

theorem speedOk_congr {a b : TripRecord}
    (hm : a.coveredDistance = b.coveredDistance)
    (hd : a.newDuration = b.newDuration) :
    speedOk a = speedOk b := by
  rw [speedOk, speedOk, speedKmh, speedKmh, hm, hd]

theorem fillSameStationDistance_departure (r : TripRecord) :
    (fillSameStationDistance r).departure = r.departure := by
  rw [fillSameStationDistance]
  split <;> rfl

theorem fillSameStationDistance_retTime (r : TripRecord) :
    (fillSameStationDistance r).retTime = r.retTime := by
  rw [fillSameStationDistance]
  split <;> rfl

theorem fillSameStationDistance_newDuration (r : TripRecord) :
    (fillSameStationDistance r).newDuration = r.newDuration := by
  rw [fillSameStationDistance]
  split <;> rfl

theorem fillSameStationDistance_extra (r : TripRecord) :
    (fillSameStationDistance r).extra = r.extra := by
  rw [fillSameStationDistance]
  split <;> rfl

theorem fillSameStationDistance_durationSec (r : TripRecord) :
    (fillSameStationDistance r).durationSec = r.durationSec := by
  rw [fillSameStationDistance]
  split <;> rfl

theorem fillSameStationDistance_cases (r : TripRecord) :
    fillSameStationDistance r = r ∨
      (fillSameStationDistance r).coveredDistance = some 0 := by
  rw [fillSameStationDistance]
  split
  · exact Or.inr rfl
  · exact Or.inl rfl

theorem fillSameStationDistance_of_isSome {r : TripRecord}
    (h : r.coveredDistance.isSome = true) : fillSameStationDistance r = r := by
  rw [fillSameStationDistance, if_neg]
  intro hc
  rw [hc.2] at h
  simp at h

theorem dropCol_comm (a b : String) (cols : List (String × String)) :
    dropCol a (dropCol b cols) = dropCol b (dropCol a cols) := by
  simp only [dropCol, List.filter_filter]
  congr 1
  funext p
  rw [Bool.and_comm]

theorem dropCol_idem (a : String) (cols : List (String × String)) :
    dropCol a (dropCol a cols) = dropCol a cols := by
  simp only [dropCol, List.filter_filter]
  congr 1
  funext p
  rw [Bool.and_self]

theorem mem_dropCol {p : String × String} {a : String}
    {cols : List (String × String)} :
    p ∈ dropCol a cols ↔ p ∈ cols ∧ p.1 ≠ a := by
  simp [dropCol]

theorem mem_dropDuplicatesAux {a : TripRecord} :
    ∀ {l seen : List TripRecord},
      a ∈ dropDuplicatesAux seen l ↔ a ∈ l ∧ a ∉ seen := by
  intro l
  induction l with
  | nil => simp [dropDuplicatesAux]
  | cons r rest ih =>
      intro seen
      rw [dropDuplicatesAux]
      by_cases hr : r ∈ seen
      · rw [if_pos hr, ih]
        constructor
        · rintro ⟨h1, h2⟩
          exact ⟨List.mem_cons_of_mem r h1, h2⟩
        · rintro ⟨h1, h2⟩
          rcases List.mem_cons.mp h1 with h | h
          · exact absurd (h ▸ hr) h2
          · exact ⟨h, h2⟩
      · rw [if_neg hr]
        constructor
        · intro hmem
          rcases List.mem_cons.mp hmem with h | hmem'
          · subst h
            exact ⟨List.mem_cons_self _ _, hr⟩
          · obtain ⟨h1, h2⟩ := ih.mp hmem'
            exact ⟨List.mem_cons_of_mem r h1,
              fun hs => h2 (List.mem_cons_of_mem r hs)⟩
        · rintro ⟨h1, h2⟩
          by_cases hab : a = r
          · subst hab
            exact List.mem_cons_self a _
          · rcases List.mem_cons.mp h1 with h | h
            · exact absurd h hab
            · refine List.mem_cons_of_mem r (ih.mpr ⟨h, fun hs => ?_⟩)
              rcases List.mem_cons.mp hs with h' | h'
              · exact hab h'
              · exact h2 h'

theorem mem_dropDuplicates {a : TripRecord} {l : List TripRecord} :
    a ∈ dropDuplicates l ↔ a ∈ l := by
  rw [dropDuplicates, mem_dropDuplicatesAux]
  simp

theorem dropDuplicatesAux_sublist :
    ∀ (l seen : List TripRecord), (dropDuplicatesAux seen l).Sublist l := by
  intro l
  induction l with
  | nil => intro seen; exact List.Sublist.refl _
  | cons r rest ih =>
      intro seen
      rw [dropDuplicatesAux]
      by_cases hr : r ∈ seen
      · rw [if_pos hr]
        exact (ih seen).cons r
      · rw [if_neg hr]
        exact (ih (r :: seen)).cons₂ r

theorem dropDuplicates_sublist (l : List TripRecord) :
    (dropDuplicates l).Sublist l :=
  dropDuplicatesAux_sublist l []

theorem nodup_dropDuplicatesAux :
    ∀ (l seen : List TripRecord), (dropDuplicatesAux seen l).Nodup := by
  intro l
  induction l with
  | nil => intro seen; simp [dropDuplicatesAux]
  | cons r rest ih =>
      intro seen
      rw [dropDuplicatesAux]
      by_cases hr : r ∈ seen
      · rw [if_pos hr]
        exact ih seen
      · rw [if_neg hr]
        refine List.nodup_cons.mpr ⟨fun hmem => ?_, ih (r :: seen)⟩
        exact (mem_dropDuplicatesAux.mp hmem).2 (List.mem_cons_self r seen)

theorem nodup_dropDuplicates (l : List TripRecord) :
    (dropDuplicates l).Nodup :=
  nodup_dropDuplicatesAux l []

theorem count_dropDuplicates (l : List TripRecord) (a : TripRecord) :
    (dropDuplicates l).count a = if a ∈ l then 1 else 0 := by
  split
  · rename_i h
    have hmem : a ∈ dropDuplicates l := mem_dropDuplicates.mpr h
    have h1 : 1 ≤ (dropDuplicates l).count a := List.one_le_count_iff.mpr hmem
    have h2 : (dropDuplicates l).count a ≤ 1 :=
      List.nodup_iff_count_le_one.mp (nodup_dropDuplicates l) a
    exact le_antisymm h2 h1
  · rename_i h
    exact List.count_eq_zero.mpr (fun hmem => h (mem_dropDuplicates.mp hmem))

theorem dropDuplicatesAux_eq_self :
    ∀ {l seen : List TripRecord}, l.Nodup → (∀ a ∈ l, a ∉ seen) →
      dropDuplicatesAux seen l = l := by
  intro l
  induction l with
  | nil => intro seen _ _; rfl
  | cons r rest ih =>
      intro seen hnd hseen
      rw [dropDuplicatesAux, if_neg (hseen r (List.mem_cons_self r rest))]
      congr 1
      refine ih (List.nodup_cons.mp hnd).2 ?_
      intro a ha hmem
      rcases List.mem_cons.mp hmem with h | h
      · exact (List.nodup_cons.mp hnd).1 (h ▸ ha)
      · exact hseen a (List.mem_cons_of_mem r ha) h

theorem dropDuplicates_eq_self {l : List TripRecord} (h : l.Nodup) :
    dropDuplicates l = l :=
  dropDuplicatesAux_eq_self h (by simp)

theorem floorToSecond_mono {a b : ℤ} (h : a ≤ b) :
    floorToSecond a ≤ floorToSecond b := by
  rw [floorToSecond, floorToSecond]
  have : Int.ediv a nsPerSec ≤ Int.ediv b nsPerSec :=
    Int.ediv_le_ediv (by rw [nsPerSec]; norm_num) h
  exact mul_le_mul_of_nonneg_left this (by rw [nsPerSec]; norm_num)

theorem floorToSecond_of_dvd {t : ℤ} (h : nsPerSec ∣ t) :
    floorToSecond t = t :=
  Int.mul_ediv_cancel' h

theorem serializeRecord_of_wholeSecond {r : TripRecord}
    (hd : wholeSecondOpt r.departure = true)
    (hr : wholeSecondOpt r.retTime = true) :
    serializeRecord r = r := by
  rw [serializeRecord]
  cases r
  simp only [TripRecord.mk.injEq, and_true, true_and]
  constructor
  · rename_i dep _ _ _ _ _ _ _
    cases dep with
    | none => rfl
    | some t =>
        simp only [wholeSecondOpt, Option.all_some, decide_eq_true_eq] at hd
        simp [floorToSecond_of_dvd hd]
  · rename_i dep ret _ _ _ _ _ _
    cases ret with
    | none => rfl
    | some t =>
        simp only [wholeSecondOpt, Option.all_some, decide_eq_true_eq] at hr
        simp [floorToSecond_of_dvd hr]

theorem returnGeDeparture_iff {r : TripRecord} :
    returnGeDeparture r = true ↔
      ∃ a b, r.departure = some a ∧ r.retTime = some b ∧ a ≤ b := by
  rw [returnGeDeparture]
  cases hr : r.retTime with
  | none => simp
  | some b =>
      cases hd : r.departure with
      | none => simp
      | some a => simp

theorem positiveNewDuration_of_minDurationOk {r : TripRecord}
    (h : minDurationOk r = true) : positiveNewDuration r = true := by
  rw [minDurationOk] at h
  rw [positiveNewDuration]
  cases hn : r.newDuration with
  | none => rw [hn] at h; exact absurd h (by simp)
  | some d =>
      rw [hn] at h
      simp only [decide_eq_true_eq] at h ⊢
      omega

theorem enrichRecord_departure (r : TripRecord) :
    (enrichRecord r).departure = r.departure := by
  rw [enrichRecord]
  show (fillSameStationDistance (addNewDuration r)).departure = _
  rw [fillSameStationDistance_departure]
  rfl

theorem enrichRecord_retTime (r : TripRecord) :
    (enrichRecord r).retTime = r.retTime := by
  rw [enrichRecord]
  show (fillSameStationDistance (addNewDuration r)).retTime = _
  rw [fillSameStationDistance_retTime]
  rfl

theorem enrichRecord_durationSec (r : TripRecord) :
    (enrichRecord r).durationSec = r.durationSec := by
  rw [enrichRecord]
  show (fillSameStationDistance (addNewDuration r)).durationSec = _
  rw [fillSameStationDistance_durationSec]
  rfl

theorem enrichRecord_newDuration (r : TripRecord) :
    (enrichRecord r).newDuration =
      some (totalSecondsAsInt (r.retTime.getD 0 - r.departure.getD 0)) := by
  rw [enrichRecord]
  show (fillSameStationDistance (addNewDuration r)).newDuration = _
  rw [fillSameStationDistance_newDuration]
  rfl

theorem enrichRecord_extra (r : TripRecord) :
    (enrichRecord r).extra =
      dropCol "Speed_kmh" (dropCol "new_duration" r.extra) := by
  rw [enrichRecord]
  show dropCol "Speed_kmh" (fillSameStationDistance (addNewDuration r)).extra = _
  rw [fillSameStationDistance_extra]
  rfl

theorem mem_validRows {r : TripRecord} {df : List TripRecord}
    (h : r ∈ validRows df) :
    r ∈ df ∧ hasValidDatetimes r = true ∧ returnGeDeparture r = true := by
  rw [validRows, dropReturnBeforeDeparture] at h
  obtain ⟨h1, hord⟩ := List.mem_filter.mp h
  have h2 : r ∈ dropInvalidDatetime df := mem_dropDuplicates.mp h1
  rw [dropInvalidDatetime] at h2
  obtain ⟨h3, hvalid⟩ := List.mem_filter.mp h2
  exact ⟨h3, hvalid, hord⟩

theorem cleanPipeline_eq (df : List TripRecord) :
    cleanPipeline df =
      sortByDeparture (dropZeroDuration (dropUnrealisticSpeed (preSpeedRows df))) :=
  rfl

theorem mem_preSpeedRows {t : TripRecord} {df : List TripRecord}
    (ht : t ∈ preSpeedRows df) :
    ∃ s, s ∈ validRows df ∧ t = fillSameStationDistance (addNewDuration s) ∧
      minDurationOk t = true ∧ maxDurationOk t = true ∧
      positiveDistance t = true := by
  rw [preSpeedRows, dropZeroDistance] at ht
  obtain ⟨ht1, hpos⟩ := List.mem_filter.mp ht
  rw [fixMissingDistance] at ht1
  obtain ⟨ht2, _⟩ := List.mem_filter.mp ht1
  obtain ⟨u, hu, htu⟩ := List.mem_map.mp ht2
  rw [dropLongTrips] at hu
  obtain ⟨hu1, hmax⟩ := List.mem_filter.mp hu
  rw [dropShortTrips] at hu1
  obtain ⟨hu2, hmin⟩ := List.mem_filter.mp hu1
  rw [calcNewDuration] at hu2
  obtain ⟨s, hs, hus⟩ := List.mem_map.mp hu2
  subst hus
  subst htu
  refine ⟨s, hs, rfl, ?_, ?_, hpos⟩
  · rw [minDurationOk_congr (fillSameStationDistance_newDuration _)]
    exact hmin
  · rw [maxDurationOk_congr (fillSameStationDistance_newDuration _)]
    exact hmax

theorem mem_cleanPipeline_provenance {r' : TripRecord} {df : List TripRecord}
    (h : r' ∈ cleanPipeline df) :
    ∃ s, s ∈ validRows df ∧ r' = enrichRecord s ∧
      minDurationOk r' = true ∧ maxDurationOk r' = true ∧
      positiveDistance r' = true ∧ speedOk r' = true := by
  rw [cleanPipeline_eq, sortByDeparture] at h
  have h1 : r' ∈ dropZeroDuration (dropUnrealisticSpeed (preSpeedRows df)) :=
    (List.perm_insertionSort departureDesc _).mem_iff.mp h
  rw [dropZeroDuration] at h1
  obtain ⟨h2, _⟩ := List.mem_filter.mp h1
  rw [dropUnrealisticSpeed] at h2
  obtain ⟨t, ht, htr⟩ := List.mem_map.mp h2
  obtain ⟨ht1, hspeed⟩ := List.mem_filter.mp ht
  obtain ⟨s, hs, hts, hmin, hmax, hpos⟩ := mem_preSpeedRows ht1
  subst htr
  have hdist : (dropSpeedCol t).coveredDistance = t.coveredDistance := rfl
  have hdur : (dropSpeedCol t).newDuration = t.newDuration := rfl
  refine ⟨s, hs, ?_, ?_, ?_, ?_, ?_⟩
  · rw [hts]
    rfl
  · rw [minDurationOk_congr hdur]
    exact hmin
  · rw [maxDurationOk_congr hdur]
    exact hmax
  · rw [positiveDistance_congr hdist]
    exact hpos
  · rw [speedOk_congr hdist hdur]
    exact hspeed

theorem cleanRow_of_mem_cleanPipeline {r' : TripRecord} {df : List TripRecord}
    (h : r' ∈ cleanPipeline df) : CleanRow r' := by
  obtain ⟨s, hs, hr', hmin, hmax, hpos, hspeed⟩ := mem_cleanPipeline_provenance h
  obtain ⟨-, -, hord⟩ := mem_validRows hs
  have hdep : r'.departure = s.departure := by rw [hr', enrichRecord_departure]
  have hret : r'.retTime = s.retTime := by rw [hr', enrichRecord_retTime]
  have hordr : returnGeDeparture r' = true := by
    rw [returnGeDeparture_congr hdep hret]
    exact hord
  obtain ⟨a, b, ha, hb, -⟩ := returnGeDeparture_iff.mp hordr
  have hextra : r'.extra = dropCol "Speed_kmh" (dropCol "new_duration" s.extra) := by
    rw [hr', enrichRecord_extra]
  refine ⟨?_, ?_, hordr, ?_, hmin, hmax, hpos, hspeed,
    positiveNewDuration_of_minDurationOk hmin, ?_, ?_⟩
  · rw [ha]; rfl
  · rw [hb]; rfl
  · rw [hr', enrichRecord_newDuration, enrichRecord_retTime,
      enrichRecord_departure]
  · rw [hextra, dropCol_comm "new_duration" "Speed_kmh", dropCol_idem]
  · rw [hextra, dropCol_idem]

theorem sorted_cleanPipeline (df : List TripRecord) :
    (cleanPipeline df).Sorted departureDesc :=
  List.sorted_insertionSort departureDesc _

theorem departureKey_serializeRecord (r : TripRecord) :
    departureKey (serializeRecord r) = floorToSecond (departureKey r) := by
  rw [serializeRecord, departureKey, departureKey]
  cases r.departure with
  | none =>
      show (0 : ℤ) = floorToSecond 0
      rw [floorToSecond]
      exact (mul_eq_zero_of_right nsPerSec (Int.zero_ediv nsPerSec)).symm
  | some t => rfl

/-- C1: every record in the pipeline's final output has its derived
duration `new_duration` in the inclusive range [60, 14400], for every
input record set. -/
theorem claimC1_derived_duration_bounds (df : List TripRecord)
    (r : TripRecord) (h : r ∈ cleanedOutput df) :
    ∃ d, r.newDuration = some d ∧ 60 ≤ d ∧ d ≤ 14400 := by
  rw [cleanedOutput] at h
  obtain ⟨t, ht, htr⟩ := List.mem_map.mp h
  have hc := cleanRow_of_mem_cleanPipeline ht
  have hmin := hc.minDur
  have hmax := hc.maxDur
  have hnd : r.newDuration = t.newDuration := by rw [← htr]; rfl
  rw [minDurationOk] at hmin
  rw [maxDurationOk] at hmax
  cases hn : t.newDuration with
  | none =>
      rw [hn] at hmin
      exact absurd hmin (by simp)
  | some d =>
      rw [hn] at hmin hmax
      simp only [decide_eq_true_eq] at hmin hmax
      exact ⟨d, by rw [hnd, hn], hmin, hmax⟩

theorem claimC1_witness :
    validTripOut ∈ cleanedOutput [validTrip] ∧
      ∃ d, validTripOut.newDuration = some d ∧ 60 ≤ d ∧ d ≤ 14400 :=
  ⟨by decide, claimC1_derived_duration_bounds [validTrip] validTripOut (by decide)⟩

/-- C8: the final output is sorted by departure time in non-increasing
order (each record's departure key is ≥ the next one's). -/
theorem claimC8_output_sorted_descending (df : List TripRecord) :
    (cleanedOutput df).Sorted departureDesc := by
  rw [cleanedOutput]
  have h : (cleanPipeline df).Pairwise departureDesc := sorted_cleanPipeline df
  refine List.pairwise_map.mpr (h.imp ?_)
  intro a b hab
  rw [departureDesc, departureKey_serializeRecord, departureKey_serializeRecord]
  exact floorToSecond_mono hab

/-- C6: on the empty input the pipeline does yield an empty output, but
the script does not produce "no data" statistics without error: the
step-5 report `removed/before*100` divides by `before = 0` and the
summary `len(df)/initial_rows` divides by `initial_rows = 0`, both
`ZeroDivisionError`s in Python (modelled as `none`). -/
theorem claimC6_empty_input_reports_divide_by_zero :
    cleanedOutput [] = [] ∧ shortTripsReport [] = none ∧
      retainedPercentage 0 0 = none := by
  refine ⟨by decide, rfl, rfl⟩

/-- C3 counterexample: a record with (non-null) negative recorded
distance reaches the zero-distance stage and is removed by it although
its distance does not equal 0, refuting "removes iff distance = 0". -/
theorem claimC3_counterexample :
    negDistRow ∈ fixMissingDistance (dropLongTrips (dropShortTrips
        (calcNewDuration (validRows [negDistTrip])))) ∧
      negDistRow.coveredDistance = some (-1) ∧
      negDistRow ∉ dropZeroDistance (fixMissingDistance (dropLongTrips
        (dropShortTrips (calcNewDuration (validRows [negDistTrip]))))) := by
  decide

/-- C3 amended: after the distance-repair stage every surviving record
has a non-null distance `m`, and the zero-distance stage removes it iff
`m` is not strictly positive (`m ≤ 0`, which includes `m = 0` but also
negative distances); a record with equal station ids and null distance is
repaired to distance 0 and then removed by the zero-distance stage. -/
theorem claimC3_zero_distance_stage (df : List TripRecord) :
    (∀ r ∈ fixMissingDistance df, ∃ m, r.coveredDistance = some m ∧
      (r ∈ dropZeroDistance (fixMissingDistance df) ↔ 0 < m)) ∧
    (∀ s : TripRecord, s.coveredDistance = none →
      s.departureStationId = s.returnStationId →
      (fillSameStationDistance s).coveredDistance = some 0 ∧
        fillSameStationDistance s ∉ dropZeroDistance (fixMissingDistance df)) := by
  constructor
  · intro r hr
    have hsome : r.coveredDistance.isSome = true := (List.mem_filter.mp hr).2
    cases hm : r.coveredDistance with
    | none =>
        rw [hm] at hsome
        exact absurd hsome (by simp)
    | some m =>
        refine ⟨m, rfl, ?_⟩
        rw [dropZeroDistance, List.mem_filter]
        constructor
        · rintro ⟨-, hposb⟩
          rw [positiveDistance, hm] at hposb
          simpa using hposb
        · intro hmpos
          refine ⟨hr, ?_⟩
          rw [positiveDistance, hm]
          simpa using hmpos
  · intro s hnull hsame
    have hfill : (fillSameStationDistance s).coveredDistance = some 0 := by
      rw [fillSameStationDistance, if_pos ⟨hsame, hnull⟩]
    refine ⟨hfill, fun hmem => ?_⟩
    have hposb := (List.mem_filter.mp hmem).2
    rw [positiveDistance, hfill] at hposb
    simp at hposb

theorem claimC3_witness :
    (∃ m, negDistRow.coveredDistance = some m ∧
      (negDistRow ∈ dropZeroDistance (fixMissingDistance [negDistRow]) ↔ 0 < m)) ∧
    ((fillSameStationDistance sameStationNullTrip).coveredDistance = some 0 ∧
      fillSameStationDistance sameStationNullTrip ∉
        dropZeroDistance (fixMissingDistance [negDistRow])) :=
  ⟨(claimC3_zero_distance_stage [negDistRow]).1 negDistRow (by decide),
   (claimC3_zero_distance_stage [negDistRow]).2 sameStationNullTrip (by decide)
     (by decide)⟩

/-- C4: every record reaching the speed-bound stage has derived duration
at least 60, so the divisor `new_duration/3600` of the speed formula
`(distance/1000)/(new_duration/3600)` is nonzero (the division-by-zero
case is unreachable); the stage keeps exactly the records with speed
≤ 50, and every record it outputs has speed ≤ 50. -/
theorem claimC4_speed_stage_safe (df : List TripRecord) :
    (∀ r ∈ preSpeedRows df,
      (∃ d, r.newDuration = some d ∧ 60 ≤ d ∧ ((d : ℚ) / 3600) ≠ 0) ∧
      speedKmh r = ((r.coveredDistance.getD 0 : ℚ) / 1000) /
        ((r.newDuration.getD 0 : ℚ) / 3600) ∧
      (dropSpeedCol r ∈ dropUnrealisticSpeed (preSpeedRows df) ↔
        speedKmh r ≤ 50)) ∧
    (∀ r' ∈ dropUnrealisticSpeed (preSpeedRows df), speedKmh r' ≤ 50) := by
  constructor
  · intro r hr
    obtain ⟨s, hs, hrs, hmin, hmax, hpos⟩ := mem_preSpeedRows hr
    rw [minDurationOk] at hmin
    have hd : ∃ d, r.newDuration = some d ∧ 60 ≤ d := by
      cases hn : r.newDuration with
      | none =>
          rw [hn] at hmin
          exact absurd hmin (by simp)
      | some d =>
          rw [hn] at hmin
          simp only [decide_eq_true_eq] at hmin
          exact ⟨d, rfl, hmin⟩
    obtain ⟨d, hnd, h60⟩ := hd
    refine ⟨⟨d, hnd, h60, ?_⟩, speedKmh_eq_div r, ?_⟩
    · exact div_ne_zero (Int.cast_ne_zero.mpr (by omega)) (by norm_num)
    · rw [dropUnrealisticSpeed]
      constructor
      · intro hmem
        obtain ⟨t, ht, htr⟩ := List.mem_map.mp hmem
        have hsp := (List.mem_filter.mp ht).2
        have he : speedOk t = speedOk r := by
          have h1 : speedOk (dropSpeedCol t) = speedOk t := speedOk_congr rfl rfl
          have h2 : speedOk (dropSpeedCol r) = speedOk r := speedOk_congr rfl rfl
          rw [← h1, htr, h2]
        rw [he, speedOk] at hsp
        exact of_decide_eq_true hsp
      · intro hle
        refine List.mem_map.mpr ⟨r, List.mem_filter.mpr ⟨hr, ?_⟩, rfl⟩
        rw [speedOk]
        exact decide_eq_true hle
  · intro r' hr'
    rw [dropUnrealisticSpeed] at hr'
    obtain ⟨t, ht, htr⟩ := List.mem_map.mp hr'
    have hsp := (List.mem_filter.mp ht).2
    rw [speedOk] at hsp
    subst htr
    show speedKmh (dropSpeedCol t) ≤ 50
    have he : speedKmh (dropSpeedCol t) = speedKmh t := rfl
    rw [he]
    exact of_decide_eq_true hsp

theorem claimC4_witness :
    (dropSpeedCol (addNewDuration validTrip) ∈
        dropUnrealisticSpeed (preSpeedRows [validTrip])) ↔
      speedKmh (addNewDuration validTrip) ≤ 50 :=
  ((claimC4_speed_stage_safe [validTrip]).1 (addNewDuration validTrip)
    (by decide)).2.2

/-- C2 counterexample: a record with a fractional-second departure
(0.9 s) survives the temporal-order stage, its derived duration is 0,
but the second-difference of the re-serialized timestamps is 1: the
derived duration does not equal the round-tripped difference. -/
theorem claimC2_counterexample :
    fracSecondTrip ∈ validRows [fracSecondTrip] ∧
      (addNewDuration fracSecondTrip).newDuration = some 0 ∧
      serializedSecondDiff fracSecondTrip = 1 ∧
      (addNewDuration fracSecondTrip).newDuration ≠
        some (serializedSecondDiff fracSecondTrip) := by
  decide

/-- C2 amended: for every record surviving the temporal-order stage the
derivation stage adds `new_duration` equal to the nanosecond difference
divided by 10^9 truncated toward zero, which under the precondition
`departure ≤ return` equals the floor (Euclidean) quotient; the stage
removes no record; and when both timestamps are whole seconds the value
also equals the second-difference of the re-serialized timestamps. -/
theorem claimC2_duration_derivation (df : List TripRecord) (r : TripRecord)
    (h : r ∈ validRows df) :
    ∃ a b, r.departure = some a ∧ r.retTime = some b ∧ a ≤ b ∧
      (addNewDuration r).newDuration = some (totalSecondsAsInt (b - a)) ∧
      totalSecondsAsInt (b - a) = Int.ediv (b - a) nsPerSec ∧
      (calcNewDuration (validRows df)).length = (validRows df).length ∧
      (wholeSecond a → wholeSecond b →
        (addNewDuration r).newDuration = some (serializedSecondDiff r)) := by
  obtain ⟨-, -, hord⟩ := mem_validRows h
  obtain ⟨a, b, ha, hb, hab⟩ := returnGeDeparture_iff.mp hord
  have hderiv : (addNewDuration r).newDuration = some (totalSecondsAsInt (b - a)) := by
    show some (totalSecondsAsInt (r.retTime.getD 0 - r.departure.getD 0)) = _
    rw [ha, hb]
    rfl
  refine ⟨a, b, ha, hb, hab, hderiv, ?_, List.length_map _ _, ?_⟩
  · rw [totalSecondsAsInt]
    exact Int.tdiv_eq_ediv (by omega) (by rw [nsPerSec]; norm_num)
  · intro hwa hwb
    have hser : serializedSecondDiff r = totalSecondsAsInt (b - a) := by
      rw [serializedSecondDiff]
      show totalSecondsAsInt ((r.retTime.map floorToSecond).getD 0 -
        (r.departure.map floorToSecond).getD 0) = _
      rw [ha, hb]
      show totalSecondsAsInt (floorToSecond b - floorToSecond a) = _
      rw [floorToSecond_of_dvd hwb, floorToSecond_of_dvd hwa]
    rw [hser, hderiv]

theorem claimC2_witness :
    ∃ a b, validTrip.departure = some a ∧ validTrip.retTime = some b ∧ a ≤ b ∧
      (addNewDuration validTrip).newDuration = some (totalSecondsAsInt (b - a)) ∧
      totalSecondsAsInt (b - a) = Int.ediv (b - a) nsPerSec ∧
      (calcNewDuration (validRows [validTrip])).length =
        (validRows [validTrip]).length ∧
      (wholeSecond a → wholeSecond b →
        (addNewDuration validTrip).newDuration =
          some (serializedSecondDiff validTrip)) :=
  claimC2_duration_derivation [validTrip] validTrip (by decide)

/-- C9 counterexample: an input column literally named `Speed_kmh` is not
preserved: its carrying record survives the pipeline, yet the column is
gone from the output (it was overwritten by the transient speed value and
then dropped). -/
theorem claimC9_counterexample :
    (cleanedOutput [speedColTrip]).length = 1 ∧
      ∀ r ∈ cleanedOutput [speedColTrip], ("Speed_kmh", "x") ∉ r.extra := by
  decide

/-- C9 amended: every extra input column is preserved verbatim except
those named `new_duration` (overwritten by the derived duration) or
`Speed_kmh` (overwritten by the transient speed and then dropped); in
particular no output record carries a `Speed_kmh` or leftover
`new_duration` extra column. -/
theorem claimC9_extra_columns (df : List TripRecord) (r' : TripRecord)
    (h : r' ∈ cleanedOutput df) :
    ∃ r ∈ df,
      r'.extra = dropCol "Speed_kmh" (dropCol "new_duration" r.extra) ∧
      (∀ p ∈ r.extra, p.1 ≠ "new_duration" → p.1 ≠ "Speed_kmh" → p ∈ r'.extra) ∧
      (∀ p ∈ r'.extra, p ∈ r.extra ∧ p.1 ≠ "new_duration" ∧ p.1 ≠ "Speed_kmh") := by
  rw [cleanedOutput] at h
  obtain ⟨t, ht, htr⟩ := List.mem_map.mp h
  obtain ⟨s, hs, hts, -, -, -, -⟩ := mem_cleanPipeline_provenance ht
  have hsdf := (mem_validRows hs).1
  have hex : r'.extra = dropCol "Speed_kmh" (dropCol "new_duration" s.extra) := by
    rw [← htr]
    show t.extra = _
    rw [hts, enrichRecord_extra]
  refine ⟨s, hsdf, hex, ?_, ?_⟩
  · intro p hp hnd hsp
    rw [hex]
    exact mem_dropCol.mpr ⟨mem_dropCol.mpr ⟨hp, hnd⟩, hsp⟩
  · intro p hp
    rw [hex] at hp
    obtain ⟨hp1, hsp⟩ := mem_dropCol.mp hp
    obtain ⟨hp2, hnd⟩ := mem_dropCol.mp hp1
    exact ⟨hp2, hnd, hsp⟩

theorem claimC9_witness :
    extraColTripOut ∈ cleanedOutput [extraColTrip] ∧
      ∃ r ∈ [extraColTrip],
        extraColTripOut.extra =
          dropCol "Speed_kmh" (dropCol "new_duration" r.extra) ∧
        (∀ p ∈ r.extra, p.1 ≠ "new_duration" → p.1 ≠ "Speed_kmh" →
          p ∈ extraColTripOut.extra) ∧
        (∀ p ∈ extraColTripOut.extra,
          p ∈ r.extra ∧ p.1 ≠ "new_duration" ∧ p.1 ≠ "Speed_kmh") :=
  ⟨by decide, claimC9_extra_columns [extraColTrip] extraColTripOut (by decide)⟩

theorem map_eq_self_of {α : Type} {f : α → α} {l : List α}
    (h : ∀ x ∈ l, f x = x) : l.map f = l :=
  (List.map_congr_left h).trans (List.map_id' l)

theorem isSome_of_positiveDistance {r : TripRecord}
    (h : positiveDistance r = true) : r.coveredDistance.isSome = true := by
  rw [positiveDistance] at h
  cases hm : r.coveredDistance with
  | none =>
      rw [hm] at h
      exact absurd h (by simp)
  | some m => simp

theorem addNewDuration_eq_self {r : TripRecord} (hc : CleanRow r) :
    addNewDuration r = r := by
  refine TripRecord.ext rfl rfl rfl rfl rfl rfl ?_ ?_
  · exact hc.derived.symm
  · exact hc.noNewDurCol

theorem dropSpeedCol_eq_self {r : TripRecord} (hc : CleanRow r) :
    dropSpeedCol r = r :=
  TripRecord.ext rfl rfl rfl rfl rfl rfl rfl hc.noSpeedCol

theorem cleanPipeline_eq_self {P : List TripRecord}
    (hrow : ∀ r ∈ P, CleanRow r) (hnd : P.Nodup)
    (hsort : P.Sorted departureDesc) : cleanPipeline P = P := by
  have h1 : dropInvalidDatetime P = P := by
    rw [dropInvalidDatetime]
    refine List.filter_eq_self.mpr fun r hr => ?_
    rw [hasValidDatetimes, Bool.and_eq_true]
    exact ⟨(hrow r hr).depSome, (hrow r hr).retSome⟩
  have h2 : dropDuplicates P = P := dropDuplicates_eq_self hnd
  have h3 : dropReturnBeforeDeparture P = P := by
    rw [dropReturnBeforeDeparture]
    exact List.filter_eq_self.mpr fun r hr => (hrow r hr).ordered
  have h4 : calcNewDuration P = P := by
    rw [calcNewDuration]
    exact map_eq_self_of fun r hr => addNewDuration_eq_self (hrow r hr)
  have h5 : dropShortTrips P = P := by
    rw [dropShortTrips]
    exact List.filter_eq_self.mpr fun r hr => (hrow r hr).minDur
  have h6 : dropLongTrips P = P := by
    rw [dropLongTrips]
    exact List.filter_eq_self.mpr fun r hr => (hrow r hr).maxDur
  have h7 : fixMissingDistance P = P := by
    rw [fixMissingDistance]
    rw [map_eq_self_of fun r hr => fillSameStationDistance_of_isSome
      (isSome_of_positiveDistance (hrow r hr).distPos)]
    exact List.filter_eq_self.mpr fun r hr =>
      isSome_of_positiveDistance (hrow r hr).distPos
  have h75 : dropZeroDistance P = P := by
    rw [dropZeroDistance]
    exact List.filter_eq_self.mpr fun r hr => (hrow r hr).distPos
  have h8 : dropUnrealisticSpeed P = P := by
    rw [dropUnrealisticSpeed]
    rw [List.filter_eq_self.mpr fun r hr => (hrow r hr).speed]
    exact map_eq_self_of fun r hr => dropSpeedCol_eq_self (hrow r hr)
  have h9 : dropZeroDuration P = P := by
    rw [dropZeroDuration]
    exact List.filter_eq_self.mpr fun r hr => (hrow r hr).posDur
  have h10 : sortByDeparture P = P := by
    rw [sortByDeparture]
    exact hsort.insertionSort_eq
  rw [cleanPipeline, h1, h2, h3, h4, h5, h6, h7, h75, h8, h9, h10]

theorem freshInput_of_mem_validRows {r : TripRecord} {df : List TripRecord}
    (hf : ∀ x ∈ df, freshInput x) (h : r ∈ validRows df) : freshInput r :=
  hf r (mem_validRows h).1

theorem addNewDuration_inj_on_fresh {x y : TripRecord}
    (hx : freshInput x) (hy : freshInput y)
    (h : addNewDuration x = addNewDuration y) : x = y := by
  obtain ⟨hx1, hx2, -, -, -⟩ := hx
  obtain ⟨hy1, hy2, -, -, -⟩ := hy
  refine TripRecord.ext ?_ ?_ ?_ ?_ ?_ ?_ ?_ ?_
  · exact show (addNewDuration x).departure = (addNewDuration y).departure from
      congrArg TripRecord.departure h
  · exact show (addNewDuration x).retTime = (addNewDuration y).retTime from
      congrArg TripRecord.retTime h
  · exact show (addNewDuration x).departureStationId =
        (addNewDuration y).departureStationId from
      congrArg TripRecord.departureStationId h
  · exact show (addNewDuration x).returnStationId =
        (addNewDuration y).returnStationId from
      congrArg TripRecord.returnStationId h
  · exact show (addNewDuration x).durationSec = (addNewDuration y).durationSec from
      congrArg TripRecord.durationSec h
  · exact show (addNewDuration x).coveredDistance =
        (addNewDuration y).coveredDistance from
      congrArg TripRecord.coveredDistance h
  · rw [hx1, hy1]
  · rw [← hx2, ← hy2]
    exact congrArg TripRecord.extra h

theorem nodup_cleanPipeline {df : List TripRecord}
    (hf : ∀ r ∈ df, freshInput r) : (cleanPipeline df).Nodup := by
  have n1 : (validRows df).Nodup := by
    rw [validRows, dropReturnBeforeDeparture]
    exact (nodup_dropDuplicates _).filter _
  have n2 : (calcNewDuration (validRows df)).Nodup := by
    rw [calcNewDuration]
    refine List.Nodup.map_on ?_ n1
    intro x hx y hy hxy
    exact addNewDuration_inj_on_fresh (freshInput_of_mem_validRows hf hx)
      (freshInput_of_mem_validRows hf hy) hxy
  have n4 : (dropLongTrips (dropShortTrips (calcNewDuration (validRows df)))).Nodup := by
    rw [dropLongTrips, dropShortTrips]
    exact (n2.filter _).filter _
  have n5 : (preSpeedRows df).Nodup := by
    rw [preSpeedRows, dropZeroDistance, fixMissingDistance, List.filter_filter,
      List.filter_map]
    refine List.Nodup.map_on ?_ (n4.filter _)
    intro x hx y hy hxy
    have hpx := (List.mem_filter.mp hx).2
    simp only [Function.comp, Bool.and_eq_true] at hpx
    rcases fillSameStationDistance_cases x with hcx | hcx
    · rcases fillSameStationDistance_cases y with hcy | hcy
      · rw [hcx, hcy] at hxy
        exact hxy
      · exfalso
        have hp : positiveDistance (fillSameStationDistance y) = true := by
          rw [← hxy]
          exact hpx.1
        rw [positiveDistance, hcy] at hp
        simp at hp
    · exfalso
      have hp := hpx.1
      rw [positiveDistance, hcx] at hp
      simp at hp
  have n6 : (dropUnrealisticSpeed (preSpeedRows df)).Nodup := by
    rw [dropUnrealisticSpeed]
    rw [map_eq_self_of (f := dropSpeedCol) ?_]
    · exact n5.filter _
    · intro t ht
      obtain ⟨s, hs, hts, -, -, -⟩ := mem_preSpeedRows (List.mem_filter.mp ht).1
      obtain ⟨-, hnd2, hsp2, -, -⟩ := freshInput_of_mem_validRows hf hs
      have hex : t.extra = s.extra := by
        rw [hts, fillSameStationDistance_extra]
        show dropCol "new_duration" s.extra = s.extra
        exact hnd2
      refine TripRecord.ext rfl rfl rfl rfl rfl rfl rfl ?_
      show dropCol "Speed_kmh" t.extra = t.extra
      rw [hex]
      exact hsp2
  have n7 : (dropZeroDuration (dropUnrealisticSpeed (preSpeedRows df))).Nodup := by
    rw [dropZeroDuration]
    exact n6.filter _
  rw [cleanPipeline_eq, sortByDeparture]
  exact (List.perm_insertionSort departureDesc _).nodup_iff.mpr n7

theorem cleanedOutput_eq_cleanPipeline_of_fresh {df : List TripRecord}
    (hf : ∀ r ∈ df, freshInput r) : cleanedOutput df = cleanPipeline df := by
  rw [cleanedOutput]
  refine map_eq_self_of fun r hr => ?_
  obtain ⟨s, hs, hrs, -, -, -, -⟩ := mem_cleanPipeline_provenance hr
  obtain ⟨-, -, -, hwd, hwr⟩ := freshInput_of_mem_validRows hf hs
  refine serializeRecord_of_wholeSecond ?_ ?_
  · rw [hrs, enrichRecord_departure]
    exact hwd
  · rw [hrs, enrichRecord_retTime]
    exact hwr

/-- C5 counterexample: on a record whose departure carries a fractional
second (0.9 s) and whose derived duration is exactly 14400, the first
pipeline run keeps the record, but re-running the pipeline on the
serialized output derives 14401 and drops it: the output is not a fixed
point — neither the record count nor the content is preserved. -/
theorem claimC5_counterexample :
    (cleanedOutput [longFracTrip]).length = 1 ∧
      cleanedOutput (cleanedOutput [longFracTrip]) = [] := by
  decide

/-- C5 amended: for every input whose records carry whole-second
timestamps and no pre-existing `new_duration` or `Speed_kmh` column (the
shape of any fresh trip CSV), re-running the pipeline on its own
serialized output returns it unchanged — same content and hence the same
record count. -/
theorem claimC5_idempotent_on_fresh (df : List TripRecord)
    (hf : ∀ r ∈ df, freshInput r) :
    cleanedOutput (cleanedOutput df) = cleanedOutput df ∧
      (cleanedOutput (cleanedOutput df)).length = (cleanedOutput df).length := by
  have hser := cleanedOutput_eq_cleanPipeline_of_fresh hf
  have hfix : cleanPipeline (cleanPipeline df) = cleanPipeline df :=
    cleanPipeline_eq_self (fun r hr => cleanRow_of_mem_cleanPipeline hr)
      (nodup_cleanPipeline hf) (sorted_cleanPipeline df)
  have h : cleanedOutput (cleanedOutput df) = cleanedOutput df := by
    rw [hser]
    show (cleanPipeline (cleanPipeline df)).map serializeRecord = _
    rw [hfix]
    exact hser
  exact ⟨h, congrArg List.length h⟩

theorem claimC5_witness :
    cleanedOutput (cleanedOutput [validTrip]) = cleanedOutput [validTrip] ∧
      (cleanedOutput (cleanedOutput [validTrip])).length =
        (cleanedOutput [validTrip]).length :=
  claimC5_idempotent_on_fresh [validTrip] (by decide)

/-- C7 counterexample: two rows identical except that the second is
shifted by half a second survive the whole pipeline (they are not exact
duplicates), yet after timestamp serialization the two output rows are
identical across all original input columns. -/
theorem claimC7_counterexample :
    (cleanedOutput [fracTwinA, fracTwinB]).length = 2 ∧
      ¬ ((cleanedOutput [fracTwinA, fracTwinB]).map originalColumns).Nodup := by
  decide

/-- C7 amended: the duplicate stage keeps a subsequence of its input,
keeps exactly the first occurrence of every row value (count 1 for
present values, 0 otherwise), and loses no value; and for inputs with
whole-second timestamps and no pre-existing `new_duration`/`Speed_kmh`
column, no two output records agree on all original input columns. -/
theorem claimC7_duplicate_stage (df : List TripRecord) :
    (dropDuplicates df).Sublist df ∧
    (∀ a, a ∈ dropDuplicates df ↔ a ∈ df) ∧
    (∀ a, (dropDuplicates df).count a = if a ∈ df then 1 else 0) ∧
    ((∀ r ∈ df, freshInput r) →
      ((cleanedOutput df).map originalColumns).Nodup) := by
  refine ⟨dropDuplicates_sublist df, fun a => mem_dropDuplicates,
    fun a => count_dropDuplicates df a, fun hf => ?_⟩
  rw [cleanedOutput_eq_cleanPipeline_of_fresh hf]
  refine List.Nodup.map_on ?_ (nodup_cleanPipeline hf)
  intro x hx y hy hxy
  have hcx := cleanRow_of_mem_cleanPipeline hx
  have hcy := cleanRow_of_mem_cleanPipeline hy
  have hdep : x.departure = y.departure :=
    show (originalColumns x).departure = (originalColumns y).departure from
      congrArg TripRecord.departure hxy
  have hret : x.retTime = y.retTime :=
    show (originalColumns x).retTime = (originalColumns y).retTime from
      congrArg TripRecord.retTime hxy
  refine TripRecord.ext hdep hret ?_ ?_ ?_ ?_ ?_ ?_
  · exact show (originalColumns x).departureStationId =
        (originalColumns y).departureStationId from
      congrArg TripRecord.departureStationId hxy
  · exact show (originalColumns x).returnStationId =
        (originalColumns y).returnStationId from
      congrArg TripRecord.returnStationId hxy
  · exact show (originalColumns x).durationSec = (originalColumns y).durationSec from
      congrArg TripRecord.durationSec hxy
  · exact show (originalColumns x).coveredDistance =
        (originalColumns y).coveredDistance from
      congrArg TripRecord.coveredDistance hxy
  · rw [hcx.derived, hcy.derived, hdep, hret]
  · exact show (originalColumns x).extra = (originalColumns y).extra from
      congrArg TripRecord.extra hxy

theorem claimC7_witness :
    ((cleanedOutput [validTrip, extraColTrip]).map originalColumns).Nodup :=
  (claimC7_duplicate_stage [validTrip, extraColTrip]).2.2.2 (by decide)

theorem setRecordedDuration_injective {g : ℤ → ℤ}
    (hg : Function.Injective g) :
    Function.Injective (setRecordedDuration g) := by
  intro a b h
  refine TripRecord.ext ?_ ?_ ?_ ?_ ?_ ?_ ?_ ?_
  · exact show (setRecordedDuration g a).departure =
        (setRecordedDuration g b).departure from
      congrArg TripRecord.departure h
  · exact show (setRecordedDuration g a).retTime =
        (setRecordedDuration g b).retTime from
      congrArg TripRecord.retTime h
  · exact show (setRecordedDuration g a).departureStationId =
        (setRecordedDuration g b).departureStationId from
      congrArg TripRecord.departureStationId h
  · exact show (setRecordedDuration g a).returnStationId =
        (setRecordedDuration g b).returnStationId from
      congrArg TripRecord.returnStationId h
  · refine hg ?_
    exact show (setRecordedDuration g a).durationSec =
        (setRecordedDuration g b).durationSec from
      congrArg TripRecord.durationSec h
  · exact show (setRecordedDuration g a).coveredDistance =
        (setRecordedDuration g b).coveredDistance from
      congrArg TripRecord.coveredDistance h
  · exact show (setRecordedDuration g a).newDuration =
        (setRecordedDuration g b).newDuration from
      congrArg TripRecord.newDuration h
  · exact show (setRecordedDuration g a).extra =
        (setRecordedDuration g b).extra from
      congrArg TripRecord.extra h

theorem filter_map_comm (p : TripRecord → Bool) (m : TripRecord → TripRecord)
    (hp : ∀ r, p (m r) = p r) (l : List TripRecord) :
    (l.map m).filter p = (l.filter p).map m := by
  rw [List.filter_map]
  congr 1
  exact List.filter_congr fun x _ => hp x

theorem dropDuplicatesAux_map {m : TripRecord → TripRecord}
    (hm : Function.Injective m) :
    ∀ (l seen : List TripRecord),
      dropDuplicatesAux (seen.map m) (l.map m) =
        (dropDuplicatesAux seen l).map m := by
  intro l
  induction l with
  | nil => intro seen; rfl
  | cons r rest ih =>
      intro seen
      rw [List.map_cons, dropDuplicatesAux, dropDuplicatesAux]
      by_cases hr : r ∈ seen
      · rw [if_pos ((List.mem_map_of_injective hm).mpr hr), if_pos hr, ih]
      · rw [if_neg (fun hc => hr ((List.mem_map_of_injective hm).mp hc)),
          if_neg hr, List.map_cons, ← ih]
        rfl

theorem dropInvalidDatetime_map (g : ℤ → ℤ) (l : List TripRecord) :
    dropInvalidDatetime (l.map (setRecordedDuration g)) =
      (dropInvalidDatetime l).map (setRecordedDuration g) :=
  filter_map_comm hasValidDatetimes (setRecordedDuration g) (fun _ => rfl) l

theorem dropDuplicates_map {g : ℤ → ℤ} (hg : Function.Injective g)
    (l : List TripRecord) :
    dropDuplicates (l.map (setRecordedDuration g)) =
      (dropDuplicates l).map (setRecordedDuration g) :=
  dropDuplicatesAux_map (setRecordedDuration_injective hg) l []

theorem dropReturnBeforeDeparture_map (g : ℤ → ℤ) (l : List TripRecord) :
    dropReturnBeforeDeparture (l.map (setRecordedDuration g)) =
      (dropReturnBeforeDeparture l).map (setRecordedDuration g) :=
  filter_map_comm returnGeDeparture (setRecordedDuration g) (fun _ => rfl) l

theorem calcNewDuration_map (g : ℤ → ℤ) (l : List TripRecord) :
    calcNewDuration (l.map (setRecordedDuration g)) =
      (calcNewDuration l).map (setRecordedDuration g) := by
  rw [calcNewDuration, calcNewDuration, List.map_map, List.map_map]
  exact List.map_congr_left fun r _ => rfl

theorem dropShortTrips_map (g : ℤ → ℤ) (l : List TripRecord) :
    dropShortTrips (l.map (setRecordedDuration g)) =
      (dropShortTrips l).map (setRecordedDuration g) :=
  filter_map_comm minDurationOk (setRecordedDuration g) (fun _ => rfl) l

theorem dropLongTrips_map (g : ℤ → ℤ) (l : List TripRecord) :
    dropLongTrips (l.map (setRecordedDuration g)) =
      (dropLongTrips l).map (setRecordedDuration g) :=
  filter_map_comm maxDurationOk (setRecordedDuration g) (fun _ => rfl) l

theorem fillSameStationDistance_setRecordedDuration (g : ℤ → ℤ)
    (r : TripRecord) :
    fillSameStationDistance (setRecordedDuration g r) =
      setRecordedDuration g (fillSameStationDistance r) := by
  rw [fillSameStationDistance, fillSameStationDistance]
  by_cases h : r.departureStationId = r.returnStationId ∧ r.coveredDistance = none
  · rw [if_pos h,
      if_pos (show (setRecordedDuration g r).departureStationId =
          (setRecordedDuration g r).returnStationId ∧
          (setRecordedDuration g r).coveredDistance = none from h)]
    rfl
  · rw [if_neg h,
      if_neg (show ¬((setRecordedDuration g r).departureStationId =
          (setRecordedDuration g r).returnStationId ∧
          (setRecordedDuration g r).coveredDistance = none) from h)]

theorem fixMissingDistance_map (g : ℤ → ℤ) (l : List TripRecord) :
    fixMissingDistance (l.map (setRecordedDuration g)) =
      (fixMissingDistance l).map (setRecordedDuration g) := by
  rw [fixMissingDistance, fixMissingDistance, List.map_map]
  have hmm : l.map (fillSameStationDistance ∘ setRecordedDuration g) =
      (l.map fillSameStationDistance).map (setRecordedDuration g) := by
    rw [List.map_map]
    exact List.map_congr_left fun r _ =>
      fillSameStationDistance_setRecordedDuration g r
  rw [hmm]
  exact filter_map_comm (fun r => r.coveredDistance.isSome)
    (setRecordedDuration g) (fun _ => rfl) _

theorem dropZeroDistance_map (g : ℤ → ℤ) (l : List TripRecord) :
    dropZeroDistance (l.map (setRecordedDuration g)) =
      (dropZeroDistance l).map (setRecordedDuration g) :=
  filter_map_comm positiveDistance (setRecordedDuration g) (fun _ => rfl) l

theorem dropUnrealisticSpeed_map (g : ℤ → ℤ) (l : List TripRecord) :
    dropUnrealisticSpeed (l.map (setRecordedDuration g)) =
      (dropUnrealisticSpeed l).map (setRecordedDuration g) := by
  rw [dropUnrealisticSpeed, dropUnrealisticSpeed,
    filter_map_comm speedOk (setRecordedDuration g) (fun _ => rfl) l,
    List.map_map, List.map_map]
  exact List.map_congr_left fun r _ => rfl

theorem dropZeroDuration_map (g : ℤ → ℤ) (l : List TripRecord) :
    dropZeroDuration (l.map (setRecordedDuration g)) =
      (dropZeroDuration l).map (setRecordedDuration g) :=
  filter_map_comm positiveNewDuration (setRecordedDuration g) (fun _ => rfl) l

theorem orderedInsert_map_of_key (m : TripRecord → TripRecord)
    (hkey : ∀ r, departureKey (m r) = departureKey r) (a : TripRecord) :
    ∀ l : List TripRecord,
      List.orderedInsert departureDesc (m a) (l.map m) =
        (List.orderedInsert departureDesc a l).map m := by
  intro l
  induction l with
  | nil => rfl
  | cons b t ih =>
      rw [List.map_cons, List.orderedInsert, List.orderedInsert]
      have hcond : departureDesc (m a) (m b) ↔ departureDesc a b := by
        rw [departureDesc, departureDesc, hkey, hkey]
      by_cases h : departureDesc a b
      · rw [if_pos (hcond.mpr h), if_pos h, List.map_cons, List.map_cons]
      · rw [if_neg (fun hc => h (hcond.mp hc)), if_neg h, List.map_cons, ih]

theorem sortByDeparture_map_of_key (m : TripRecord → TripRecord)
    (hkey : ∀ r, departureKey (m r) = departureKey r) :
    ∀ l : List TripRecord,
      sortByDeparture (l.map m) = (sortByDeparture l).map m := by
  intro l
  induction l with
  | nil => rfl
  | cons a t ih =>
      rw [sortByDeparture, List.map_cons]
      show List.orderedInsert departureDesc (m a)
          (List.insertionSort departureDesc (t.map m)) =
        (List.orderedInsert departureDesc a
          (List.insertionSort departureDesc t)).map m
      rw [sortByDeparture] at ih
      rw [show List.insertionSort departureDesc (t.map m) =
          (List.insertionSort departureDesc t).map m from ih]
      exact orderedInsert_map_of_key m hkey a _

/-- C10 counterexample: two input rows identical except for the recorded
`Duration (sec.)` column both survive, while making the second row's
recorded duration equal to the first one's removes it (as an exact
duplicate): whether a record survives is not independent of the recorded
duration field. -/
theorem claimC10_counterexample :
    (cleanedOutput [dupDurTripA, dupDurTripB]).length = 2 ∧
      (cleanedOutput [dupDurTripA, dupDurTripA]).length = 1 := by
  decide

/-- C10 amended: no stage modifies or bounds the recorded duration —
every output record's `durationSec` is the verbatim value of an input
record, and out-of-range or negative values survive — and the only read
of the field is the exact-duplicate comparison: relabelling the recorded
durations by any injective map commutes with the entire pipeline. -/
theorem claimC10_recorded_duration_frame (df : List TripRecord) :
    (∀ r' ∈ cleanedOutput df, ∃ r ∈ df, r'.durationSec = r.durationSec) ∧
    (∀ g : ℤ → ℤ, Function.Injective g →
      cleanedOutput (df.map (setRecordedDuration g)) =
        (cleanedOutput df).map (setRecordedDuration g)) ∧
    (negDurTripOut ∈ cleanedOutput [negDurTrip] ∧
      negDurTripOut.durationSec = -5) := by
  refine ⟨?_, ?_, by decide, by decide⟩
  · intro r' h
    rw [cleanedOutput] at h
    obtain ⟨t, ht, htr⟩ := List.mem_map.mp h
    obtain ⟨s, hs, hts, -, -, -, -⟩ := mem_cleanPipeline_provenance ht
    refine ⟨s, (mem_validRows hs).1, ?_⟩
    rw [← htr]
    show t.durationSec = s.durationSec
    rw [hts, enrichRecord_durationSec]
  · intro g hg
    rw [cleanedOutput, cleanedOutput, cleanPipeline, cleanPipeline]
    rw [dropInvalidDatetime_map g, dropDuplicates_map hg,
      dropReturnBeforeDeparture_map g, calcNewDuration_map g,
      dropShortTrips_map g, dropLongTrips_map g, fixMissingDistance_map g,
      dropZeroDistance_map g, dropUnrealisticSpeed_map g,
      dropZeroDuration_map g,
      sortByDeparture_map_of_key (setRecordedDuration g) (fun _ => rfl),
      List.map_map, List.map_map]
    exact List.map_congr_left fun r _ => rfl

theorem claimC10_witness :
    cleanedOutput ([validTrip].map (setRecordedDuration (fun t => t + 1))) =
      (cleanedOutput [validTrip]).map (setRecordedDuration (fun t => t + 1)) :=
  (claimC10_recorded_duration_frame [validTrip]).2.1 (fun t => t + 1)
    (fun _ _ h => add_right_cancel h)

end HelsinkiBikes
